import Mathlib

/-!
Verification development for the CryptoBot Signal Fusion & Trade-Planning
Engine.  The repository ships a FastAPI backend (documented in its README)
and a React frontend; the backend analysis services are modelled here from
the specification, the frontend API client and Settings form are embedded
from the JavaScript sources.  All prices, confidences and indicator values
are modelled exactly as rationals (the sources compute in double precision
with no rounding until presentation).
-/

/-- Trading signal classes produced by the engine. -/
inductive Signal where
  | HOLD
  | LONG
  | SHORT
deriving DecidableEq, Repr

/-- Provenance flag of an analysis result. -/
inductive Mode where
  | live
  | simulated
deriving DecidableEq, Repr

/-- One OHLCV candle. -/
structure Candle where
  open_time : Nat
  open_price : ℚ
  high : ℚ
  low : ℚ
  close : ℚ
  volume : ℚ
deriving DecidableEq, Repr

/-- Indicator values at the latest point of the series. -/
structure IndicatorSet where
  rsi : ℚ
  macd : ℚ
  signal : ℚ
  histogram : ℚ
  ema_9 : ℚ
  ema_21 : ℚ
  ema_50 : ℚ
deriving DecidableEq, Repr

/-- Support and resistance levels of the evaluated window. -/
structure StructureLevels where
  support : ℚ
  resistance : ℚ
deriving DecidableEq, Repr

/-- Direction of a breaker block event. -/
inductive BreakerType where
  | bullish
  | bearish
deriving DecidableEq, Repr

/-- One breaker-block (supply/demand zone) event. -/
structure BreakerBlock where
  type : BreakerType
  level : ℚ
  timestamp : Nat
deriving DecidableEq, Repr

/-- Output of the sequence model: signal plus max class probability. -/
structure ModelSignal where
  signal : Signal
  confidence : ℚ
deriving DecidableEq, Repr

/-- Output of the advisory service (or its rule-based fallback). -/
structure AdvisoryDecision where
  signal : Signal
  reason : String
deriving DecidableEq, Repr

/-- Concrete trade parameters emitted for a directional signal. -/
structure TradeSetup where
  entry_price : ℚ
  stop_loss : ℚ
  take_profit_1 : ℚ
  take_profit_2 : ℚ
  take_profit_3 : ℚ
  risk_reward_ratio : ℚ
deriving DecidableEq, Repr

/-- Failure of the trade planner on degenerate geometry. -/
inductive GeometryError where
  | invalidTradeGeometry
deriving DecidableEq, Repr

/-- Modelled from the spec: high-confidence threshold of the Signal Fusion
Policy (the backend fusion code is not in the source tree); disagreement is
resolved toward the model only when its confidence strictly exceeds this
value, ties resolve toward HOLD. -/
def highConfidenceThreshold : ℚ := 4 / 5

/-- Modelled from the spec: the Signal Fusion Policy.  Agreement returns the
common signal; on disagreement the model's signal wins only when its
confidence strictly exceeds the threshold; otherwise the safe default HOLD
is returned (never an unconfirmed directional trade). -/
def fuseSignals (m : ModelSignal) (a : AdvisoryDecision) : Signal :=
  if m.signal = a.signal then m.signal
  else if highConfidenceThreshold < m.confidence then m.signal
  else Signal.HOLD

/-- Modelled from the spec: the Trade Planner (backend trade_calculator is
not in the source tree).  HOLD produces no setup; LONG stops 2% below
support, SHORT stops 2% above resistance, targets at 1.5x/2.5x/4.0x risk;
non-positive risk fails with InvalidTradeGeometry. -/
def planTrade (s : Signal) (price support resistance : ℚ) :
    Except GeometryError (Option TradeSetup) :=
  match s with
  | Signal.HOLD => Except.ok none
  | Signal.LONG =>
      let entry := price
      let stop := support * (98 / 100)
      let risk := entry - stop
      if risk ≤ 0 then Except.error GeometryError.invalidTradeGeometry
      else Except.ok (some
        { entry_price := entry
          stop_loss := stop
          take_profit_1 := entry + (3 / 2) * risk
          take_profit_2 := entry + (5 / 2) * risk
          take_profit_3 := entry + 4 * risk
          risk_reward_ratio := 3 / 2 })
  | Signal.SHORT =>
      let entry := price
      let stop := resistance * (102 / 100)
      let risk := stop - entry
      if risk ≤ 0 then Except.error GeometryError.invalidTradeGeometry
      else Except.ok (some
        { entry_price := entry
          stop_loss := stop
          take_profit_1 := entry - (3 / 2) * risk
          take_profit_2 := entry - (5 / 2) * risk
          take_profit_3 := entry - 4 * risk
          risk_reward_ratio := 3 / 2 })

/-- Diagnostic reason attached when trade geometry is degenerate. -/
def geometryReason : String := "invalid trade geometry: risk must be positive"

/-- Modelled from the spec: the caller-side handling of the planner.  A
GeometryError downgrades the result to final_signal HOLD with no trade
setup and a distinct diagnostic reason, rather than failing the request. -/
def finalize (fused : Signal) (price support resistance : ℚ) :
    Signal × Option TradeSetup × Option String :=
  match planTrade fused price support resistance with
  | Except.ok ts => (fused, ts, none)
  | Except.error _ => (Signal.HOLD, none, some geometryReason)

/-- One exponential-moving-average step with smoothing factor `a`. -/
def emaStep (a prev x : ℚ) : ℚ := a * x + (1 - a) * prev

/-- Running EMA values after a seed, one value per input point. -/
def emaRun (a seed : ℚ) : List ℚ → List ℚ
  | [] => []
  | x :: xs => emaStep a seed x :: emaRun a (emaStep a seed x) xs

/-- Modelled from the spec: EMA series of period `n` (backend indicators
service is not in the source tree), seeded with the simple average of the
first `n` points, smoothing factor 2/(n+1); empty when the series is too
short. -/
def emaSeries (n : Nat) (xs : List ℚ) : List ℚ :=
  if xs.length < n ∨ n = 0 then []
  else
    let seed := (xs.take n).sum / (n : ℚ)
    seed :: emaRun (2 / ((n : ℚ) + 1)) seed (xs.drop n)

/-- Latest EMA value of period `n`, when defined. -/
def emaLatest (n : Nat) (xs : List ℚ) : Option ℚ := (emaSeries n xs).getLast?

/-- Modelled from the spec: the MACD line, EMA(12) minus EMA(26), aligned on
the indices where both are defined. -/
def macdLine (xs : List ℚ) : List ℚ :=
  List.zipWith (fun a b => a - b) ((emaSeries 12 xs).drop 14) (emaSeries 26 xs)

/-- Modelled from the spec: the MACD signal line, EMA(9) of the macd line. -/
def signalLine (xs : List ℚ) : List ℚ := emaSeries 9 (macdLine xs)

/-- Modelled from the spec: the MACD histogram, macd minus signal pointwise
on the aligned indices. -/
def histLine (xs : List ℚ) : List ℚ :=
  List.zipWith (fun a b => a - b) ((macdLine xs).drop 8) (signalLine xs)

/-- Latest macd value, when defined. -/
def macdLatest (xs : List ℚ) : Option ℚ := (macdLine xs).getLast?

/-- Latest signal-line value, when defined. -/
def signalLatest (xs : List ℚ) : Option ℚ := (signalLine xs).getLast?

/-- Latest histogram value, when defined. -/
def histLatest (xs : List ℚ) : Option ℚ := (histLine xs).getLast?

/-- Successive differences of a price series. -/
def deltas (xs : List ℚ) : List ℚ :=
  (xs.zip xs.tail).map (fun p => p.2 - p.1)

/-- One step of 14-period Wilder smoothing. -/
def wilderStep (prev x : ℚ) : ℚ := (prev * 13 + x) / 14

/-- Wilder-smoothed average after folding the remaining values. -/
def wilderRun (seed : ℚ) (xs : List ℚ) : ℚ := xs.foldl wilderStep seed

/-- RSI from the smoothed average gain and loss; a zero average loss means
pure upward momentum, RSI 100. -/
def rsiFromAvgs (g l : ℚ) : ℚ :=
  if l = 0 then 100 else 100 * g / (g + l)

/-- Modelled from the spec: 14-period RSI at the latest point (backend
indicators service is not in the source tree); Wilder smoothing of gains
and losses, defined only once 14 deltas exist. -/
def rsiLatest (xs : List ℚ) : Option ℚ :=
  let ds := deltas xs
  if ds.length < 14 then none
  else
    let g := wilderRun (((ds.take 14).map (fun d => max d 0)).sum / 14)
      ((ds.drop 14).map (fun d => max d 0))
    let l := wilderRun (((ds.take 14).map (fun d => max (-d) 0)).sum / 14)
      ((ds.drop 14).map (fun d => max (-d) 0))
    some (rsiFromAvgs g l)

/-- Modelled from the spec: the Indicator Engine contract — an IndicatorSet
for the latest point, or failure (InsufficientData) when any component is
undefined on the given series. -/
def computeIndicators (closes : List ℚ) : Option IndicatorSet :=
  match rsiLatest closes, macdLatest closes, signalLatest closes,
      histLatest closes, emaLatest 9 closes, emaLatest 21 closes,
      emaLatest 50 closes with
  | some r, some m, some s, some h, some e9, some e21, some e50 =>
      some { rsi := r, macd := m, signal := s, histogram := h,
             ema_9 := e9, ema_21 := e21, ema_50 := e50 }
  | _, _, _, _, _, _, _ => none

/-- Modelled from the spec: fold picking the candle with the minimum low;
a tie (equal low) keeps the later candle, favoring recency. -/
def supportPick (c : Candle) (cs : List Candle) : Candle :=
  cs.foldl (fun best d => if d.low ≤ best.low then d else best) c

/-- Modelled from the spec: fold picking the candle with the maximum high;
a tie (equal high) keeps the later candle, favoring recency. -/
def resistancePick (c : Candle) (cs : List Candle) : Candle :=
  cs.foldl (fun best d => if best.high ≤ d.high then d else best) c

/-- Modelled from the spec: the Structure Detector's support/resistance —
minimum low and maximum high over the evaluated window. -/
def structureLevels (cs : List Candle) : StructureLevels :=
  match cs with
  | [] => { support := 0, resistance := 0 }
  | c :: rest =>
      { support := (supportPick c rest).low
        resistance := (resistancePick c rest).high }

/-- Modelled from the spec: breaker emission for one consecutive candle
pair — a bullish breaker at the previous high when the current low gaps
above it, a bearish breaker at the previous low when the current high gaps
below it, each stamped with the triggering candle's time. -/
def pairBreakers (a b : Candle) : List BreakerBlock :=
  (if a.high < b.low then
      [{ type := BreakerType.bullish, level := a.high, timestamp := b.open_time }]
    else []) ++
  (if b.high < a.low then
      [{ type := BreakerType.bearish, level := a.low, timestamp := b.open_time }]
    else [])

/-- Modelled from the spec: the breaker-block pass — a single stateless
forward iteration over consecutive candle pairs. -/
def detectBreakers : List Candle → List BreakerBlock
  | a :: b :: rest => pairBreakers a b ++ detectBreakers (b :: rest)
  | _ => []

/-- Modelled from the spec: the Feature Assembler — the fixed-order
10-component feature vector, RSI normalized by 100, the rest in native
units. -/
def assembleFeatures (ind : IndicatorSet) (c : Candle) : List ℚ :=
  [ind.rsi / 100, ind.macd, ind.signal, ind.histogram,
   ind.ema_9, ind.ema_21, ind.ema_50, c.close, c.volume, c.high - c.low]

/-- Modelled from the spec: the pre-loaded, read-only parameter set of the
sequence model; inference is the pure application of its function to a
feature vector. -/
structure ModelParams where
  toFun : List ℚ → ModelSignal

/-- Modelled from the spec: the Sequence Model Runner — a stateless
function from feature vector to ModelSignal over fixed parameters. -/
def runSequenceModel (p : ModelParams) (fv : List ℚ) : ModelSignal :=
  p.toFun fv

/-- The aggregate analysis response. -/
structure AnalysisResult where
  symbol : String
  current_price : ℚ
  indicators : IndicatorSet
  support_resistance : StructureLevels
  breaker_blocks : List BreakerBlock
  lstm_signal : ModelSignal
  ai_decision : AdvisoryDecision
  final_signal : Signal
  trade_setup : Option TradeSetup
  setup_reason : Option String
  mode : Mode
deriving DecidableEq, Repr

/-- Modelled from the spec: the end-to-end analysis pipeline — indicators
and structure from the candles, features into the sequence model, fusion
with the advisory decision, then the trade planner; insufficient data
yields no result, degenerate geometry downgrades to HOLD. -/
def runPipeline (p : ModelParams) (symbol : String) (candles : List Candle)
    (adv : AdvisoryDecision) (mode : Mode) : Option AnalysisResult :=
  match candles.getLast? with
  | none => none
  | some last =>
    match computeIndicators (candles.map (fun c => c.close)) with
    | none => none
    | some ind =>
        let sr := structureLevels candles
        let blocks := detectBreakers candles
        let fv := assembleFeatures ind last
        let ms := runSequenceModel p fv
        let fused := fuseSignals ms adv
        let fin := finalize fused last.close sr.support sr.resistance
        some { symbol := symbol
               current_price := last.close
               indicators := ind
               support_resistance := sr
               breaker_blocks := blocks
               lstm_signal := ms
               ai_decision := adv
               final_signal := fin.1
               trade_setup := fin.2.1
               setup_reason := fin.2.2
               mode := mode }

/-- The HTTP request issued by the top-coins client call. -/
structure TopCoinsRequest where
  path : String
  limit : ℚ
deriving DecidableEq, Repr

/-- Endpoint path requested by `getTopCoins`. -/
def topCoinsPath : String := "/api/market/top-coins"

/-- Frontend client `getTopCoins` (lib/api): a limit outside [1, 500]
throws before any request is issued; otherwise the top-coins endpoint is
requested with exactly that limit. -/
def getTopCoins (limit : ℚ) : Except String TopCoinsRequest :=
  if limit < 1 ∨ limit > 500 then
    Except.error "Limit must be between 1 and 500"
  else
    Except.ok { path := topCoinsPath, limit := limit }

/-- `getTopCoins` with its default argument of 100. -/
def getTopCoinsDefault : Except String TopCoinsRequest := getTopCoins 100

/-- The three API-key fields of the Settings form. -/
structure SettingsForm where
  binance_api_key : String
  binance_secret_key : String
  openai_api_key : String
deriving DecidableEq, Repr

/-- Request body of the settings update; a `none` field is omitted from the
JSON payload entirely. -/
structure SettingsPayload where
  binance_api_key : Option String
  binance_secret_key : Option String
  openai_api_key : Option String
deriving DecidableEq, Repr

/-- Keys stored server-side for a user. -/
structure StoredKeys where
  binance_api_key : String
  binance_secret_key : String
  openai_api_key : String
deriving DecidableEq, Repr

/-- Whitespace characters stripped by the JavaScript string trim used in
the Settings form (the common ASCII subset). -/
def isJsWhitespace (c : Char) : Bool :=
  c == ' ' || c == '\t' || c == '\n' || c == '\r'

/-- Trim of a character list: leading and trailing whitespace removed. -/
def trimChars (s : List Char) : List Char :=
  ((s.dropWhile isJsWhitespace).reverse.dropWhile isJsWhitespace).reverse

/-- The JavaScript `trim()` applied to a string value. -/
def jsTrim (s : String) : String := String.mk (trimChars s.data)

/-- Settings form `handleSubmit` payload construction: each field is
included (with its untrimmed value) only when its value is non-empty after
trimming, and omitted otherwise. -/
def buildSettingsPayload (f : SettingsForm) : SettingsPayload :=
  { binance_api_key :=
      if jsTrim f.binance_api_key = "" then none else some f.binance_api_key
    binance_secret_key :=
      if jsTrim f.binance_secret_key = "" then none
      else some f.binance_secret_key
    openai_api_key :=
      if jsTrim f.openai_api_key = "" then none else some f.openai_api_key }

/-- Modelled from the spec: the backend settings-update handler (not in the
source tree); per the documented behavior, a field absent from the payload
leaves the corresponding stored key unchanged, a present field replaces
it. -/
def applySettingsUpdate (st : StoredKeys) (p : SettingsPayload) : StoredKeys :=
  { binance_api_key := p.binance_api_key.getD st.binance_api_key
    binance_secret_key := p.binance_secret_key.getD st.binance_secret_key
    openai_api_key := p.openai_api_key.getD st.openai_api_key }

/-- Constant test candle used for concrete evaluation of the pipeline. -/
def wCandle : Candle :=
  { open_time := 0, open_price := 10, high := 11, low := 9, close := 10,
    volume := 5 }

/-- Constant candle window of length 50 (enough for every indicator). -/
def wCandles : List Candle := List.replicate 50 wCandle

/-- Constant sequence-model parameters used for concrete evaluation. -/
def wParams : ModelParams := ⟨fun _ => ⟨Signal.LONG, 9 / 10⟩⟩

/-- Advisory decision used for concrete evaluation. -/
def wAdv : AdvisoryDecision := ⟨Signal.SHORT, "ai"⟩

/-- The analysis result produced by the pipeline on the constant window. -/
def wResult : AnalysisResult :=
  { symbol := "BTCUSDT"
    current_price := 10
    indicators := { rsi := 100, macd := 0, signal := 0, histogram := 0,
                    ema_9 := 10, ema_21 := 10, ema_50 := 10 }
    support_resistance := { support := 9, resistance := 11 }
    breaker_blocks := []
    lstm_signal := ⟨Signal.LONG, 9 / 10⟩
    ai_decision := wAdv
    final_signal := Signal.LONG
    trade_setup := some
      { entry_price := 10
        stop_loss := 441 / 50
        take_profit_1 := 1177 / 100
        take_profit_2 := 259 / 20
        take_profit_3 := 368 / 25
        risk_reward_ratio := 3 / 2 }
    setup_reason := none
    mode := Mode.live }

lemma supportPick_cons (c x : Candle) (xs : List Candle) :
    supportPick c (x :: xs) =
      supportPick (if x.low ≤ c.low then x else c) xs := rfl

lemma resistancePick_cons (c x : Candle) (xs : List Candle) :
    resistancePick c (x :: xs) =
      resistancePick (if c.high ≤ x.high then x else c) xs := rfl

lemma supportPick_mem (c : Candle) (cs : List Candle) :
    supportPick c cs ∈ c :: cs := by
  induction cs generalizing c with
  | nil => simp [supportPick]
  | cons x xs ih =>
    rw [supportPick_cons]
    rcases List.mem_cons.mp (ih (if x.low ≤ c.low then x else c)) with h | h
    · by_cases hx : x.low ≤ c.low
      · rw [if_pos hx] at h
        rw [if_pos hx, h]
        simp
      · rw [if_neg hx] at h
        rw [if_neg hx, h]
        simp
    · simp [List.mem_cons.mpr (Or.inr (List.mem_cons.mpr (Or.inr h)))]

lemma supportPick_le (c : Candle) (cs : List Candle) :
    ∀ d ∈ c :: cs, (supportPick c cs).low ≤ d.low := by
  induction cs generalizing c with
  | nil =>
    intro d hd
    simp at hd
    simp [supportPick, hd]
  | cons x xs ih =>
    intro d hd
    rw [supportPick_cons]
    have hc : (supportPick (if x.low ≤ c.low then x else c) xs).low ≤
        (if x.low ≤ c.low then x else c).low :=
      ih _ _ (List.mem_cons_self _ _)
    rcases List.mem_cons.mp hd with h | h
    · subst h
      by_cases hx : x.low ≤ d.low
      · rw [if_pos hx] at hc ⊢
        exact le_trans hc hx
      · rw [if_neg hx] at hc ⊢
        exact hc
    · rcases List.mem_cons.mp h with h2 | h2
      · subst h2
        by_cases hx : d.low ≤ c.low
        · rw [if_pos hx] at hc ⊢
          exact hc
        · rw [if_neg hx] at hc ⊢
          exact le_trans hc (le_of_not_le hx)
      · exact ih _ _ (List.mem_cons.mpr (Or.inr h2))

lemma resistancePick_mem (c : Candle) (cs : List Candle) :
    resistancePick c cs ∈ c :: cs := by
  induction cs generalizing c with
  | nil => simp [resistancePick]
  | cons x xs ih =>
    rw [resistancePick_cons]
    rcases List.mem_cons.mp (ih (if c.high ≤ x.high then x else c)) with h | h
    · by_cases hx : c.high ≤ x.high
      · rw [if_pos hx] at h
        rw [if_pos hx, h]
        simp
      · rw [if_neg hx] at h
        rw [if_neg hx, h]
        simp
    · simp [List.mem_cons.mpr (Or.inr (List.mem_cons.mpr (Or.inr h)))]

lemma resistancePick_le (c : Candle) (cs : List Candle) :
    ∀ d ∈ c :: cs, d.high ≤ (resistancePick c cs).high := by
  induction cs generalizing c with
  | nil =>
    intro d hd
    simp at hd
    simp [resistancePick, hd]
  | cons x xs ih =>
    intro d hd
    rw [resistancePick_cons]
    have hc : (if c.high ≤ x.high then x else c).high ≤
        (resistancePick (if c.high ≤ x.high then x else c) xs).high :=
      ih _ _ (List.mem_cons_self _ _)
    rcases List.mem_cons.mp hd with h | h
    · subst h
      by_cases hx : d.high ≤ x.high
      · rw [if_pos hx] at hc ⊢
        exact le_trans hx hc
      · rw [if_neg hx] at hc ⊢
        exact hc
    · rcases List.mem_cons.mp h with h2 | h2
      · subst h2
        by_cases hx : c.high ≤ d.high
        · rw [if_pos hx] at hc ⊢
          exact hc
        · rw [if_neg hx] at hc ⊢
          exact le_trans (le_of_not_le hx) hc
      · exact ih _ _ (List.mem_cons.mpr (Or.inr h2))

lemma detectBreakers_eq_flatMap (cs : List Candle) :
    detectBreakers cs =
      (cs.zip cs.tail).flatMap (fun p => pairBreakers p.1 p.2) := by
  induction cs with
  | nil => rfl
  | cons a rest ih =>
    cases rest with
    | nil => rfl
    | cons b rest2 =>
      simp only [detectBreakers, List.tail_cons, List.zip_cons_cons,
        List.flatMap_cons]
      rw [ih]
      simp

lemma finalize_setup_iff (fused : Signal) (price sup res : ℚ) :
    ((finalize fused price sup res).2.1).isSome = true ↔
      (finalize fused price sup res).1 ≠ Signal.HOLD := by
  cases fused
  · simp [finalize, planTrade]
  · by_cases h : price - sup * (98 / 100) ≤ 0
    · simp [finalize, planTrade, h]
    · simp [finalize, planTrade, h]
  · by_cases h : res * (102 / 100) - price ≤ 0
    · simp [finalize, planTrade, h]
    · simp [finalize, planTrade, h]

lemma emaStep_self (a x : ℚ) : emaStep a x x = x := by
  simp [emaStep]
  ring

lemma emaRun_replicate (a x : ℚ) (n : Nat) :
    emaRun a x (List.replicate n x) = List.replicate n x := by
  induction n with
  | zero => rfl
  | succ m ih =>
    rw [List.replicate_succ, emaRun, emaStep_self, ih]

lemma emaSeries_replicate (n m : Nat) (x : ℚ) (hn : n ≠ 0) (hm : n ≤ m) :
    emaSeries n (List.replicate m x) = List.replicate (m - n + 1) x := by
  rw [emaSeries, if_neg (by simp [hn]; omega)]
  rw [List.take_replicate, List.drop_replicate, min_eq_left hm]
  have hsum : (List.replicate n x).sum = (n : ℚ) * x := by
    rw [List.sum_replicate]
    simp [nsmul_eq_mul]
  rw [hsum, mul_div_cancel_left₀ x (by exact_mod_cast hn)]
  show x :: emaRun (2 / ((n : ℚ) + 1)) x (List.replicate (m - n) x) =
    List.replicate (m - n + 1) x
  rw [emaRun_replicate, ← List.replicate_succ]

lemma zipWith_sub_replicate (k : Nat) (x y : ℚ) :
    List.zipWith (fun a b => a - b) (List.replicate k x) (List.replicate k y) =
      List.replicate k (x - y) := by
  simp [List.zipWith_replicate]

lemma wilderRun_zero (n : Nat) : wilderRun 0 (List.replicate n 0) = 0 := by
  induction n with
  | zero => rfl
  | succ m ih =>
    rw [List.replicate_succ, wilderRun, List.foldl_cons]
    have : wilderStep 0 0 = 0 := by norm_num [wilderStep]
    rw [this]
    exact ih

lemma macdLine_replicate : macdLine (List.replicate 50 10) =
    List.replicate 25 (0 : ℚ) := by
  rw [macdLine, emaSeries_replicate 12 50 10 (by norm_num) (by norm_num),
    emaSeries_replicate 26 50 10 (by norm_num) (by norm_num),
    List.drop_replicate]
  norm_num [zipWith_sub_replicate]

lemma signalLine_replicate : signalLine (List.replicate 50 10) =
    List.replicate 17 (0 : ℚ) := by
  rw [signalLine, macdLine_replicate,
    emaSeries_replicate 9 25 0 (by norm_num) (by norm_num)]

lemma histLine_replicate : histLine (List.replicate 50 10) =
    List.replicate 17 (0 : ℚ) := by
  rw [histLine, macdLine_replicate, signalLine_replicate, List.drop_replicate]
  norm_num [zipWith_sub_replicate]

lemma deltas_replicate (m : Nat) (x : ℚ) :
    deltas (List.replicate m x) = List.replicate (m - 1) 0 := by
  rw [deltas, List.tail_replicate, List.zip_replicate]
  simp

lemma rsiLatest_replicate : rsiLatest (List.replicate 50 (10 : ℚ)) =
    some 100 := by
  rw [rsiLatest]
  simp only [deltas_replicate]
  norm_num [List.take_replicate, List.drop_replicate, List.map_replicate,
    List.sum_replicate]
  rw [wilderRun_zero]
  simp [rsiFromAvgs]

lemma computeIndicators_replicate :
    computeIndicators (List.replicate 50 (10 : ℚ)) =
      some { rsi := 100, macd := 0, signal := 0, histogram := 0,
             ema_9 := 10, ema_21 := 10, ema_50 := 10 } := by
  rw [computeIndicators, rsiLatest_replicate, macdLatest, macdLine_replicate,
    signalLatest, signalLine_replicate, histLatest, histLine_replicate]
  rw [emaLatest, emaSeries_replicate 9 50 10 (by norm_num) (by norm_num)]
  rw [emaLatest, emaSeries_replicate 21 50 10 (by norm_num) (by norm_num)]
  rw [emaLatest, emaSeries_replicate 50 50 10 (by norm_num) (by norm_num)]
  simp [List.getLast?_replicate]

lemma supportPick_replicate (c : Candle) (n : Nat) :
    supportPick c (List.replicate n c) = c := by
  induction n with
  | zero => rfl
  | succ m ih =>
    rw [List.replicate_succ, supportPick_cons, ite_self]
    exact ih

lemma resistancePick_replicate (c : Candle) (n : Nat) :
    resistancePick c (List.replicate n c) = c := by
  induction n with
  | zero => rfl
  | succ m ih =>
    rw [List.replicate_succ, resistancePick_cons, ite_self]
    exact ih

lemma detectBreakers_replicate (c : Candle) (h : pairBreakers c c = []) :
    ∀ n : Nat, detectBreakers (List.replicate n c) = [] := by
  intro n
  induction n with
  | zero => rfl
  | succ m ih =>
    cases m with
    | zero => rfl
    | succ k =>
      rw [List.replicate_succ, List.replicate_succ, detectBreakers, h,
        ← List.replicate_succ, ih]
      rfl

lemma runPipeline_concrete :
    runPipeline wParams "BTCUSDT" wCandles wAdv Mode.live = some wResult := by
  rw [runPipeline]
  have hmap : wCandles.map (fun c => c.close) = List.replicate 50 (10 : ℚ) := by
    rw [wCandles, List.map_replicate]
    rfl
  have hlast : wCandles.getLast? = some wCandle := by
    rw [wCandles, List.getLast?_replicate]
    norm_num
  have hsr : structureLevels wCandles = { support := 9, resistance := 11 } := by
    have : wCandles = wCandle :: List.replicate 49 wCandle := by
      rw [wCandles]
      rfl
    rw [this, structureLevels, supportPick_replicate, resistancePick_replicate]
    rfl
  have hbb : detectBreakers wCandles = [] := by
    rw [wCandles]
    exact detectBreakers_replicate wCandle (by norm_num [pairBreakers, wCandle]) 50
  have hfuse : fuseSignals (runSequenceModel wParams
      (assembleFeatures ⟨100, 0, 0, 0, 10, 10, 10⟩ wCandle)) wAdv =
      Signal.LONG := by
    show fuseSignals ⟨Signal.LONG, 9 / 10⟩ wAdv = Signal.LONG
    rw [fuseSignals]
    norm_num [wAdv, highConfidenceThreshold]
  have hfin : finalize Signal.LONG wCandle.close 9 11 =
      (Signal.LONG, some
        ⟨10, 441 / 50, 1177 / 100, 259 / 20, 368 / 25, 3 / 2⟩, none) := by
    norm_num [finalize, planTrade, wCandle]
  simp only [hmap, hlast, computeIndicators_replicate, hsr, hbb, hfuse, hfin,
    wResult]
  rfl

lemma emaRun_length (a s : ℚ) (xs : List ℚ) :
    (emaRun a s xs).length = xs.length := by
  induction xs generalizing s with
  | nil => rfl
  | cons x rest ih =>
    rw [emaRun, List.length_cons, List.length_cons, ih]

lemma emaSeries_length (n : Nat) (xs : List ℚ) (hn : n ≠ 0) :
    (emaSeries n xs).length = xs.length + 1 - n := by
  rw [emaSeries]
  by_cases h : xs.length < n
  · rw [if_pos (Or.inl h)]
    simp
    omega
  · rw [if_neg (by push_neg; exact ⟨le_of_not_lt h, hn⟩)]
    simp [emaRun_length]
    omega

lemma macdLine_length (xs : List ℚ) : (macdLine xs).length = xs.length - 25 := by
  rw [macdLine, List.length_zipWith, List.length_drop,
    emaSeries_length 12 xs (by norm_num), emaSeries_length 26 xs (by norm_num)]
  omega

lemma signalLine_length (xs : List ℚ) :
    (signalLine xs).length = xs.length - 33 := by
  rw [signalLine, emaSeries_length 9 _ (by norm_num), macdLine_length]
  omega

lemma histLine_length (xs : List ℚ) :
    (histLine xs).length = xs.length - 33 := by
  rw [histLine, List.length_zipWith, List.length_drop, macdLine_length,
    signalLine_length]
  omega

lemma getLast?_zipWith_sub (xs ys : List ℚ) (h : xs.length = ys.length)
    (x y : ℚ) (hx : xs.getLast? = some x) (hy : ys.getLast? = some y) :
    (List.zipWith (fun a b => a - b) xs ys).getLast? = some (x - y) := by
  induction xs generalizing ys x y with
  | nil => simp at hx
  | cons a rest ih =>
    cases ys with
    | nil => simp at hy
    | cons b rest2 =>
      cases rest with
      | nil =>
        cases rest2 with
        | nil =>
          simp at hx hy
          simp [hx, hy]
        | cons u v => simp at h
      | cons c rest3 =>
        cases rest2 with
        | nil => simp at h
        | cons u v =>
          rw [List.getLast?_cons_cons] at hx hy
          rw [List.zipWith_cons_cons, List.zipWith_cons_cons,
            List.getLast?_cons_cons, ← List.zipWith_cons_cons]
          exact ih (u :: v) (by simpa using h) x y hx hy

lemma getLast?_drop_of_lt (xs : List ℚ) (n : Nat) (h : n < xs.length) :
    (xs.drop n).getLast? = xs.getLast? := by
  rw [List.getLast?_eq_getElem?, List.getLast?_eq_getElem?,
    List.getElem?_drop, List.length_drop]
  congr 1
  omega

lemma wilderStep_nonneg (prev x : ℚ) (hp : 0 ≤ prev) (hx : 0 ≤ x) :
    0 ≤ wilderStep prev x := by
  rw [wilderStep]
  positivity

lemma wilderRun_nonneg (s : ℚ) (xs : List ℚ) (hs : 0 ≤ s)
    (hx : ∀ x ∈ xs, 0 ≤ x) : 0 ≤ wilderRun s xs := by
  induction xs generalizing s with
  | nil => exact hs
  | cons a rest ih =>
    rw [wilderRun, List.foldl_cons]
    exact ih _ (wilderStep_nonneg s a hs (hx a (List.mem_cons_self a rest)))
      (fun x hxm => hx x (List.mem_cons.mpr (Or.inr hxm)))

lemma rsiFromAvgs_bounds (g l : ℚ) (hg : 0 ≤ g) (hl : 0 ≤ l) :
    0 ≤ rsiFromAvgs g l ∧ rsiFromAvgs g l ≤ 100 := by
  rw [rsiFromAvgs]
  by_cases h : l = 0
  · rw [if_pos h]
    norm_num
  · rw [if_neg h]
    have hl2 : 0 < l := lt_of_le_of_ne hl (Ne.symm h)
    have hgl : 0 < g + l := by linarith
    constructor
    · positivity
    · rw [div_le_iff₀ hgl]
      linarith

lemma rsiAvg_nonneg (ds : List ℚ) (f : ℚ → ℚ) (hf : ∀ d : ℚ, 0 ≤ f d) :
    0 ≤ wilderRun (((ds.take 14).map f).sum / 14) ((ds.drop 14).map f) := by
  apply wilderRun_nonneg
  · apply div_nonneg _ (by norm_num)
    apply List.sum_nonneg
    intro x hx
    rcases List.mem_map.mp hx with ⟨d, _, hd⟩
    rw [← hd]
    exact hf d
  · intro x hx
    rcases List.mem_map.mp hx with ⟨d, _, hd⟩
    rw [← hd]
    exact hf d

lemma rsiLatest_bounds (xs : List ℚ) (r : ℚ) (h : rsiLatest xs = some r) :
    0 ≤ r ∧ r ≤ 100 := by
  rw [rsiLatest] at h
  by_cases hlen : (deltas xs).length < 14
  · rw [if_pos hlen] at h
    exact absurd h (by simp)
  · rw [if_neg hlen] at h
    have hr := Option.some.inj h
    rw [← hr]
    exact rsiFromAvgs_bounds _ _
      (rsiAvg_nonneg (deltas xs) _ (fun d => le_max_right d 0))
      (rsiAvg_nonneg (deltas xs) _ (fun d => le_max_right (-d) 0))

lemma macdLatest_eq (closes : List ℚ) (m : ℚ)
    (hm : macdLatest closes = some m) :
    ∃ e12 e26 : ℚ, emaLatest 12 closes = some e12 ∧
      emaLatest 26 closes = some e26 ∧ m = e12 - e26 := by
  rw [macdLatest] at hm
  have hne : macdLine closes ≠ [] := by
    intro h0
    rw [h0] at hm
    simp at hm
  have hlen : 0 < (macdLine closes).length := List.length_pos.mpr hne
  rw [macdLine_length] at hlen
  have h12len : (emaSeries 12 closes).length = closes.length - 11 := by
    rw [emaSeries_length 12 _ (by norm_num)]
    omega
  have h26len : (emaSeries 26 closes).length = closes.length - 25 := by
    rw [emaSeries_length 26 _ (by norm_num)]
    omega
  have h12ne : emaSeries 12 closes ≠ [] := by
    intro h0
    rw [h0] at h12len
    simp at h12len
    omega
  have h26ne : emaSeries 26 closes ≠ [] := by
    intro h0
    rw [h0] at h26len
    simp at h26len
    omega
  obtain ⟨e12, he12⟩ := Option.isSome_iff_exists.mp
    (List.getLast?_isSome.mpr h12ne)
  obtain ⟨e26, he26⟩ := Option.isSome_iff_exists.mp
    (List.getLast?_isSome.mpr h26ne)
  have hdrop : ((emaSeries 12 closes).drop 14).getLast? = some e12 := by
    rw [getLast?_drop_of_lt _ 14 (by rw [h12len]; omega)]
    exact he12
  have hz := getLast?_zipWith_sub ((emaSeries 12 closes).drop 14)
    (emaSeries 26 closes) (by rw [List.length_drop, h12len, h26len]; omega)
    e12 e26 hdrop he26
  rw [macdLine] at hm
  rw [hz] at hm
  exact ⟨e12, e26, by rw [emaLatest]; exact he12,
    by rw [emaLatest]; exact he26, (Option.some.inj hm).symm⟩

lemma histLatest_eq (closes : List ℚ) (hv mv sv : ℚ)
    (hh : histLatest closes = some hv) (hm : macdLatest closes = some mv)
    (hs : signalLatest closes = some sv) : hv = mv - sv := by
  rw [histLatest] at hh
  rw [macdLatest] at hm
  rw [signalLatest] at hs
  have hne : histLine closes ≠ [] := by
    intro h0
    rw [h0] at hh
    simp at hh
  have hlen : 0 < (histLine closes).length := List.length_pos.mpr hne
  rw [histLine_length] at hlen
  have hmlen : ((macdLine closes).drop 8).length =
      (signalLine closes).length := by
    rw [List.length_drop, macdLine_length, signalLine_length]
    omega
  have hdrop : ((macdLine closes).drop 8).getLast? = some mv := by
    rw [getLast?_drop_of_lt _ 8 (by rw [macdLine_length]; omega)]
    exact hm
  have hz := getLast?_zipWith_sub _ _ hmlen mv sv hdrop hs
  rw [histLine] at hh
  rw [hz] at hh
  exact (Option.some.inj hh).symm

/-- C1: the Signal Fusion Policy returns the common signal on agreement; on disagreement the model signal wins exactly when its confidence strictly exceeds 0.80, while a confidence at most the threshold resolves to the advisory signal or the safe default HOLD; concretely (LONG, 0.9) against SHORT gives LONG and (LONG, 0.6) against SHORT gives HOLD. -/
theorem c1_signal_fusion_policy (m : ModelSignal) (a : AdvisoryDecision) :
    (m.signal = a.signal → fuseSignals m a = m.signal) ∧
    (m.signal ≠ a.signal → (4 / 5 : ℚ) < m.confidence →
      fuseSignals m a = m.signal) ∧
    (m.signal ≠ a.signal → m.confidence ≤ (4 / 5 : ℚ) →
      fuseSignals m a = a.signal ∨ fuseSignals m a = Signal.HOLD) ∧
    (∀ r : String,
      fuseSignals ⟨Signal.LONG, 9 / 10⟩ ⟨Signal.SHORT, r⟩ = Signal.LONG) ∧
    (∀ r : String,
      fuseSignals ⟨Signal.LONG, 6 / 10⟩ ⟨Signal.SHORT, r⟩ = Signal.HOLD) := by
  refine ⟨fun h => ?_, fun h hc => ?_, fun h hc => ?_, fun r => ?_, fun r => ?_⟩
  · simp [fuseSignals, h]
  · simp [fuseSignals, h, highConfidenceThreshold, hc]
  · right
    simp [fuseSignals, h, highConfidenceThreshold, not_lt.mpr hc]
  · simp [fuseSignals, highConfidenceThreshold]
    norm_num
  · simp [fuseSignals, highConfidenceThreshold]
    norm_num

/-- Concrete instantiation of the fusion-policy theorem. -/
theorem c1_signal_fusion_policy_witness :
    fuseSignals ⟨Signal.LONG, 9 / 10⟩ ⟨Signal.SHORT, "override"⟩ =
      Signal.LONG ∧
    fuseSignals ⟨Signal.HOLD, 1 / 2⟩ ⟨Signal.HOLD, "agree"⟩ = Signal.HOLD ∧
    (fuseSignals ⟨Signal.LONG, 6 / 10⟩ ⟨Signal.SHORT, "low"⟩ =
        Signal.SHORT ∨
      fuseSignals ⟨Signal.LONG, 6 / 10⟩ ⟨Signal.SHORT, "low"⟩ =
        Signal.HOLD) :=
  ⟨(c1_signal_fusion_policy ⟨Signal.LONG, 9 / 10⟩ ⟨Signal.SHORT, "override"⟩).2.1
      (by simp) (by norm_num),
    (c1_signal_fusion_policy ⟨Signal.HOLD, 1 / 2⟩ ⟨Signal.HOLD, "agree"⟩).1 rfl,
    (c1_signal_fusion_policy ⟨Signal.LONG, 6 / 10⟩ ⟨Signal.SHORT, "low"⟩).2.2.1
      (by simp) (by norm_num)⟩

/-- C2: for a LONG final signal with positive risk the Trade Planner returns exactly entry = current_price, stop_loss = support x 0.98, and targets at 1.5x, 2.5x and 4.0x the risk, mirrored for SHORT with resistance x 1.02; LONG with entry 100 and support 95 yields stop 93.1 and targets 110.35, 117.25, 127.6; identical inputs always produce identical setups. -/
theorem c2_trade_planner_formulas (price support resistance : ℚ) :
    (0 < price - support * (98 / 100) →
      planTrade Signal.LONG price support resistance =
        Except.ok (some
          { entry_price := price
            stop_loss := support * (98 / 100)
            take_profit_1 := price + (3 / 2) * (price - support * (98 / 100))
            take_profit_2 := price + (5 / 2) * (price - support * (98 / 100))
            take_profit_3 := price + 4 * (price - support * (98 / 100))
            risk_reward_ratio := 3 / 2 })) ∧
    (0 < resistance * (102 / 100) - price →
      planTrade Signal.SHORT price support resistance =
        Except.ok (some
          { entry_price := price
            stop_loss := resistance * (102 / 100)
            take_profit_1 := price - (3 / 2) * (resistance * (102 / 100) - price)
            take_profit_2 := price - (5 / 2) * (resistance * (102 / 100) - price)
            take_profit_3 := price - 4 * (resistance * (102 / 100) - price)
            risk_reward_ratio := 3 / 2 })) ∧
    planTrade Signal.LONG 100 95 0 =
      Except.ok (some ⟨100, 93.1, 110.35, 117.25, 127.6, 3 / 2⟩) ∧
    (∀ (s s2 : Signal) (p sup r p2 sup2 r2 : ℚ),
      s = s2 → p = p2 → sup = sup2 → r = r2 →
      planTrade s p sup r = planTrade s2 p2 sup2 r2) := by
  refine ⟨fun h => ?_, fun h => ?_, by norm_num [planTrade],
    fun s s2 p sup r p2 sup2 r2 h1 h2 h3 h4 => by rw [h1, h2, h3, h4]⟩
  · simp only [planTrade]
    rw [if_neg (not_le.mpr h)]
  · simp only [planTrade]
    rw [if_neg (not_le.mpr h)]

/-- Concrete instantiation of the trade-planner formula theorem. -/
theorem c2_trade_planner_formulas_witness :
    planTrade Signal.LONG 100 95 0 =
      Except.ok (some
        { entry_price := (100 : ℚ)
          stop_loss := 95 * (98 / 100)
          take_profit_1 := 100 + (3 / 2) * (100 - 95 * (98 / 100))
          take_profit_2 := 100 + (5 / 2) * (100 - 95 * (98 / 100))
          take_profit_3 := 100 + 4 * (100 - 95 * (98 / 100))
          risk_reward_ratio := 3 / 2 }) ∧
    planTrade Signal.SHORT 100 0 103 =
      Except.ok (some
        { entry_price := (100 : ℚ)
          stop_loss := 103 * (102 / 100)
          take_profit_1 := 100 - (3 / 2) * (103 * (102 / 100) - 100)
          take_profit_2 := 100 - (5 / 2) * (103 * (102 / 100) - 100)
          take_profit_3 := 100 - 4 * (103 * (102 / 100) - 100)
          risk_reward_ratio := 3 / 2 }) :=
  ⟨(c2_trade_planner_formulas 100 95 0).1 (by norm_num),
    (c2_trade_planner_formulas 100 0 103).2.1 (by norm_num)⟩

/-- C3 counterexample: a LONG input whose support 101 lies at or above the current price 100 is accepted by the planner with positive risk 1.02, so support at or above current_price alone does not raise GeometryError. -/
theorem c3_counterexample :
    (100 : ℚ) ≤ 101 ∧
    planTrade Signal.LONG 100 101 0 =
      Except.ok (some ⟨100, 98.98, 101.53, 102.55, 104.08, 3 / 2⟩) := by
  refine ⟨by norm_num, ?_⟩
  norm_num [planTrade]

/-- C3 (amended): the planner fails with InvalidTradeGeometry exactly on non-positive risk, that is current_price at most support x 0.98 for LONG and resistance x 1.02 at most current_price for SHORT; it never emits a setup with non-positive risk, and the caller downgrades a geometry failure to HOLD with no trade setup and a distinct diagnostic reason rather than a request failure. -/
theorem c3_geometry_error (price support resistance : ℚ) :
    (price - support * (98 / 100) ≤ 0 →
      planTrade Signal.LONG price support resistance =
        Except.error GeometryError.invalidTradeGeometry) ∧
    (resistance * (102 / 100) - price ≤ 0 →
      planTrade Signal.SHORT price support resistance =
        Except.error GeometryError.invalidTradeGeometry) ∧
    (∀ ts : TradeSetup,
      planTrade Signal.LONG price support resistance = Except.ok (some ts) →
      0 < ts.entry_price - ts.stop_loss) ∧
    (∀ ts : TradeSetup,
      planTrade Signal.SHORT price support resistance = Except.ok (some ts) →
      0 < ts.stop_loss - ts.entry_price) ∧
    (price - support * (98 / 100) ≤ 0 →
      finalize Signal.LONG price support resistance =
        (Signal.HOLD, none, some geometryReason)) ∧
    (resistance * (102 / 100) - price ≤ 0 →
      finalize Signal.SHORT price support resistance =
        (Signal.HOLD, none, some geometryReason)) := by
  have hl : price - support * (98 / 100) ≤ 0 →
      planTrade Signal.LONG price support resistance =
        Except.error GeometryError.invalidTradeGeometry := by
    intro h
    simp only [planTrade]
    rw [if_pos h]
  have hs : resistance * (102 / 100) - price ≤ 0 →
      planTrade Signal.SHORT price support resistance =
        Except.error GeometryError.invalidTradeGeometry := by
    intro h
    simp only [planTrade]
    rw [if_pos h]
  refine ⟨hl, hs, fun ts hts => ?_, fun ts hts => ?_, fun h => ?_, fun h => ?_⟩
  · by_cases h : price - support * (98 / 100) ≤ 0
    · rw [hl h] at hts
      exact absurd hts (by simp)
    · simp only [planTrade, if_neg h] at hts
      have h2 := Except.ok.inj hts
      have h3 := Option.some.inj h2
      rw [← h3]
      simpa using lt_of_not_le h
  · by_cases h : resistance * (102 / 100) - price ≤ 0
    · rw [hs h] at hts
      exact absurd hts (by simp)
    · simp only [planTrade, if_neg h] at hts
      have h2 := Except.ok.inj hts
      have h3 := Option.some.inj h2
      rw [← h3]
      simpa using lt_of_not_le h
  · simp only [finalize, hl h]
  · simp only [finalize, hs h]

/-- Concrete instantiation of the geometry-error theorem. -/
theorem c3_geometry_error_witness :
    planTrade Signal.LONG 100 (200 : ℚ) 0 =
      Except.error GeometryError.invalidTradeGeometry ∧
    planTrade Signal.SHORT 100 0 (50 : ℚ) =
      Except.error GeometryError.invalidTradeGeometry ∧
    finalize Signal.LONG 100 (200 : ℚ) 0 =
      (Signal.HOLD, none, some geometryReason) :=
  ⟨(c3_geometry_error 100 200 0).1 (by norm_num),
    (c3_geometry_error 100 0 50).2.1 (by norm_num),
    (c3_geometry_error 100 200 0).2.2.2.2.1 (by norm_num)⟩

/-- C4: every AnalysisResult produced by the pipeline carries a trade setup exactly when its final signal is LONG or SHORT; with final signal HOLD the setup is absent. -/
theorem c4_trade_setup_iff_directional (p : ModelParams) (sym : String)
    (cs : List Candle) (adv : AdvisoryDecision) (mode : Mode)
    (res : AnalysisResult) (h : runPipeline p sym cs adv mode = some res) :
    res.trade_setup.isSome = true ↔ res.final_signal ≠ Signal.HOLD := by
  simp only [runPipeline] at h
  cases hlast : cs.getLast? with
  | none =>
    rw [hlast] at h
    exact absurd h (by simp)
  | some last =>
    rw [hlast] at h
    cases hind : computeIndicators (cs.map fun c => c.close) with
    | none =>
      rw [hind] at h
      exact absurd h (by simp)
    | some ind =>
      rw [hind] at h
      have h2 := Option.some.inj h
      rw [← h2]
      exact finalize_setup_iff _ _ _ _

/-- Concrete instantiation of the setup-presence theorem. -/
theorem c4_trade_setup_iff_directional_witness :
    wResult.trade_setup.isSome = true ↔
      wResult.final_signal ≠ Signal.HOLD :=
  c4_trade_setup_iff_directional wParams "BTCUSDT" wCandles wAdv Mode.live
    wResult runPipeline_concrete

/-- C5: the breaker-block pass is a single stateless forward iteration over consecutive candle pairs; a pair whose current low exceeds the previous high emits exactly one bullish breaker at the previous high stamped with the triggering candle timestamp, a pair whose current high is below the previous low emits exactly one bearish breaker at the previous low, and no other breakers are emitted. -/
theorem c5_breaker_pass (cs : List Candle) :
    detectBreakers cs =
      (cs.zip cs.tail).flatMap (fun p => pairBreakers p.1 p.2) ∧
    ∀ a b : Candle, a.low ≤ a.high → b.low ≤ b.high →
      ((a.high < b.low →
        pairBreakers a b =
          [{ type := BreakerType.bullish, level := a.high,
             timestamp := b.open_time }]) ∧
      (b.high < a.low →
        pairBreakers a b =
          [{ type := BreakerType.bearish, level := a.low,
             timestamp := b.open_time }]) ∧
      (¬ a.high < b.low → ¬ b.high < a.low → pairBreakers a b = [])) := by
  refine ⟨detectBreakers_eq_flatMap cs, fun a b ha hb => ⟨?_, ?_, ?_⟩⟩
  · intro h
    have h2 : ¬ b.high < a.low :=
      not_lt.mpr (le_of_lt (lt_of_le_of_lt ha (lt_of_lt_of_le h hb)))
    simp [pairBreakers, h, h2]
  · intro h
    have h2 : ¬ a.high < b.low :=
      not_lt.mpr (le_of_lt (lt_of_le_of_lt hb (lt_of_lt_of_le h ha)))
    simp [pairBreakers, h, h2]
  · intro h1 h2
    simp [pairBreakers, h1, h2]

/-- Concrete instantiation of the breaker-pass theorem. -/
theorem c5_breaker_pass_witness :
    pairBreakers ⟨0, 5, 6, 4, 5, 1⟩ ⟨1, 8, 9, 7, 8, 1⟩ =
      [{ type := BreakerType.bullish, level := 6, timestamp := 1 }] ∧
    pairBreakers ⟨0, 8, 9, 7, 8, 1⟩ ⟨1, 5, 6, 4, 5, 1⟩ =
      [{ type := BreakerType.bearish, level := 7, timestamp := 1 }] ∧
    pairBreakers ⟨0, 5, 6, 4, 5, 1⟩ ⟨1, 5, 6, 4, 5, 1⟩ = [] ∧
    detectBreakers [⟨0, 5, 6, 4, 5, 1⟩] =
      ([⟨0, 5, 6, 4, 5, 1⟩].zip [⟨0, 5, 6, 4, 5, 1⟩].tail).flatMap
        (fun p => pairBreakers p.1 p.2) :=
  ⟨((c5_breaker_pass []).2 ⟨0, 5, 6, 4, 5, 1⟩ ⟨1, 8, 9, 7, 8, 1⟩
      (by norm_num) (by norm_num)).1 (by norm_num),
    ((c5_breaker_pass []).2 ⟨0, 8, 9, 7, 8, 1⟩ ⟨1, 5, 6, 4, 5, 1⟩
      (by norm_num) (by norm_num)).2.1 (by norm_num),
    ((c5_breaker_pass []).2 ⟨0, 5, 6, 4, 5, 1⟩ ⟨1, 5, 6, 4, 5, 1⟩
      (by norm_num) (by norm_num)).2.2 (by norm_num) (by norm_num),
    (c5_breaker_pass [⟨0, 5, 6, 4, 5, 1⟩]).1⟩

/-- C6: on a non-empty window the Structure Detector returns support equal to the minimum low and resistance equal to the maximum high, bounding every candle in the window with equality attained at an extremal candle, and a tie on the extremal value keeps the most recent candle. -/
theorem c6_support_resistance (c : Candle) (cs : List Candle) :
    (structureLevels (c :: cs)).support = (supportPick c cs).low ∧
    (structureLevels (c :: cs)).resistance = (resistancePick c cs).high ∧
    supportPick c cs ∈ c :: cs ∧
    (∀ d ∈ c :: cs, (structureLevels (c :: cs)).support ≤ d.low) ∧
    resistancePick c cs ∈ c :: cs ∧
    (∀ d ∈ c :: cs, d.high ≤ (structureLevels (c :: cs)).resistance) ∧
    (∀ d : Candle, d.low ≤ (supportPick c cs).low →
      supportPick c (cs ++ [d]) = d) ∧
    (∀ d : Candle, (resistancePick c cs).high ≤ d.high →
      resistancePick c (cs ++ [d]) = d) := by
  refine ⟨rfl, rfl, supportPick_mem c cs, supportPick_le c cs,
    resistancePick_mem c cs, resistancePick_le c cs, fun d hd => ?_,
    fun d hd => ?_⟩
  · rw [supportPick, List.foldl_append]
    exact if_pos hd
  · rw [resistancePick, List.foldl_append]
    exact if_pos hd

/-- Concrete instantiation of the support-resistance theorem. -/
theorem c6_support_resistance_witness :
    (structureLevels
        [⟨0, 5, 6, 4, 5, 1⟩, ⟨1, 7, 9, 3, 8, 1⟩]).support ≤
      (⟨1, 7, 9, 3, 8, 1⟩ : Candle).low ∧
    (⟨1, 7, 9, 3, 8, 1⟩ : Candle).high ≤
      (structureLevels [⟨0, 5, 6, 4, 5, 1⟩, ⟨1, 7, 9, 3, 8, 1⟩]).resistance ∧
    supportPick ⟨0, 5, 6, 4, 5, 1⟩ [⟨1, 7, 9, 3, 8, 1⟩] ∈
      [(⟨0, 5, 6, 4, 5, 1⟩ : Candle), ⟨1, 7, 9, 3, 8, 1⟩] ∧
    supportPick ⟨0, 5, 6, 4, 5, 1⟩ ([⟨1, 7, 9, 3, 8, 1⟩] ++ [⟨2, 5, 6, 3, 5, 1⟩]) =
      ⟨2, 5, 6, 3, 5, 1⟩ :=
  ⟨(c6_support_resistance ⟨0, 5, 6, 4, 5, 1⟩ [⟨1, 7, 9, 3, 8, 1⟩]).2.2.2.1
      ⟨1, 7, 9, 3, 8, 1⟩ (by simp),
    (c6_support_resistance ⟨0, 5, 6, 4, 5, 1⟩
        [⟨1, 7, 9, 3, 8, 1⟩]).2.2.2.2.2.1 ⟨1, 7, 9, 3, 8, 1⟩ (by simp),
    (c6_support_resistance ⟨0, 5, 6, 4, 5, 1⟩ [⟨1, 7, 9, 3, 8, 1⟩]).2.2.1,
    (c6_support_resistance ⟨0, 5, 6, 4, 5, 1⟩
        [⟨1, 7, 9, 3, 8, 1⟩]).2.2.2.2.2.2.1 ⟨2, 5, 6, 3, 5, 1⟩ (by
          simp [supportPick]
          norm_num)⟩

/-- C7: the macd line is EMA(12) minus EMA(26), the signal line is EMA(9) of the macd line, and the histogram equals macd minus signal pointwise and at the latest returned IndicatorSet, an exact identity for all inputs; the returned RSI always lies in the interval [0, 100]. -/
theorem c7_macd_identity_rsi_bounds (closes : List ℚ) :
    macdLine closes =
      List.zipWith (fun a b => a - b) ((emaSeries 12 closes).drop 14)
        (emaSeries 26 closes) ∧
    signalLine closes = emaSeries 9 (macdLine closes) ∧
    histLine closes =
      List.zipWith (fun a b => a - b) ((macdLine closes).drop 8)
        (signalLine closes) ∧
    (∀ i : Nat, i < (histLine closes).length →
      (histLine closes).getD i 0 =
        (macdLine closes).getD (i + 8) 0 - (signalLine closes).getD i 0) ∧
    (∀ ind : IndicatorSet, computeIndicators closes = some ind →
      ind.histogram = ind.macd - ind.signal ∧
      (∃ e12 e26 : ℚ, emaLatest 12 closes = some e12 ∧
        emaLatest 26 closes = some e26 ∧ ind.macd = e12 - e26) ∧
      0 ≤ ind.rsi ∧ ind.rsi ≤ 100) ∧
    (∀ r : ℚ, rsiLatest closes = some r → 0 ≤ r ∧ r ≤ 100) := by
  refine ⟨rfl, rfl, rfl, fun i hi => ?_, fun ind hind => ?_,
    fun r hr => rsiLatest_bounds closes r hr⟩
  · have hi2 := hi
    rw [histLine_length] at hi2
    have hm : i + 8 < (macdLine closes).length := by
      rw [macdLine_length]
      omega
    have hs : i < (signalLine closes).length := by
      rw [signalLine_length]
      omega
    have hd : i < ((macdLine closes).drop 8).length := by
      rw [List.length_drop, macdLine_length]
      omega
    rw [List.getD_eq_getElem?_getD, List.getD_eq_getElem?_getD,
      List.getD_eq_getElem?_getD, histLine, List.getElem?_zipWith,
      List.getElem?_drop, List.getElem?_eq_getElem (by omega : 8 + i < (macdLine closes).length),
      List.getElem?_eq_getElem hs, List.getElem?_eq_getElem (by omega : i + 8 < (macdLine closes).length)]
    simp only [Option.getD_some]
    congr 2
    omega
  · rw [computeIndicators] at hind
    cases hr : rsiLatest closes with
    | none =>
      rw [hr] at hind
      simp at hind
    | some rv =>
      rw [hr] at hind
      cases hm : macdLatest closes with
      | none =>
        rw [hm] at hind
        simp at hind
      | some mv =>
        rw [hm] at hind
        cases hsg : signalLatest closes with
        | none =>
          rw [hsg] at hind
          simp at hind
        | some sv =>
          rw [hsg] at hind
          cases hh : histLatest closes with
          | none =>
            rw [hh] at hind
            simp at hind
          | some hv =>
            rw [hh] at hind
            cases h9 : emaLatest 9 closes with
            | none =>
              rw [h9] at hind
              simp at hind
            | some e9 =>
              rw [h9] at hind
              cases h21 : emaLatest 21 closes with
              | none =>
                rw [h21] at hind
                simp at hind
              | some e21 =>
                rw [h21] at hind
                cases h50 : emaLatest 50 closes with
                | none =>
                  rw [h50] at hind
                  simp at hind
                | some e50 =>
                  rw [h50] at hind
                  have h2 := Option.some.inj hind
                  rw [← h2]
                  refine ⟨histLatest_eq closes hv mv sv hh hm hsg, ?_, ?_, ?_⟩
                  · exact macdLatest_eq closes mv hm
                  · exact (rsiLatest_bounds closes rv hr).1
                  · exact (rsiLatest_bounds closes rv hr).2

/-- Concrete instantiation of the indicator-identity theorem. -/
theorem c7_macd_identity_rsi_bounds_witness :
    ((⟨100, 0, 0, 0, 10, 10, 10⟩ : IndicatorSet).histogram =
        (⟨100, 0, 0, 0, 10, 10, 10⟩ : IndicatorSet).macd -
          (⟨100, 0, 0, 0, 10, 10, 10⟩ : IndicatorSet).signal ∧
      (∃ e12 e26 : ℚ, emaLatest 12 (List.replicate 50 10) = some e12 ∧
        emaLatest 26 (List.replicate 50 10) = some e26 ∧
        (⟨100, 0, 0, 0, 10, 10, 10⟩ : IndicatorSet).macd = e12 - e26) ∧
      0 ≤ (⟨100, 0, 0, 0, 10, 10, 10⟩ : IndicatorSet).rsi ∧
      (⟨100, 0, 0, 0, 10, 10, 10⟩ : IndicatorSet).rsi ≤ 100) ∧
    (0 ≤ (100 : ℚ) ∧ (100 : ℚ) ≤ 100) ∧
    (histLine (List.replicate 50 10)).getD 0 0 =
      (macdLine (List.replicate 50 10)).getD (0 + 8) 0 -
        (signalLine (List.replicate 50 10)).getD 0 0 :=
  ⟨(c7_macd_identity_rsi_bounds (List.replicate 50 10)).2.2.2.2.1
      ⟨100, 0, 0, 0, 10, 10, 10⟩ computeIndicators_replicate,
    (c7_macd_identity_rsi_bounds (List.replicate 50 10)).2.2.2.2.2 100
      rsiLatest_replicate,
    (c7_macd_identity_rsi_bounds (List.replicate 50 10)).2.2.2.1 0
      (by rw [histLine_length]; norm_num)⟩

/-- C8: the pipeline is deterministic; the Sequence Model Runner is a pure function of its parameters and feature vector, so identical feature vectors give identical model signals and identical candle and advisory inputs give identical analysis results. -/
theorem c8_pipeline_deterministic :
    (∀ (p : ModelParams) (fv fv2 : List ℚ), fv = fv2 →
      runSequenceModel p fv = runSequenceModel p fv2) ∧
    (∀ (p : ModelParams) (sym sym2 : String) (cs cs2 : List Candle)
        (adv adv2 : AdvisoryDecision) (mode mode2 : Mode),
      sym = sym2 → cs = cs2 → adv = adv2 → mode = mode2 →
      runPipeline p sym cs adv mode = runPipeline p sym2 cs2 adv2 mode2) :=
  ⟨fun p fv fv2 h => by rw [h],
    fun p sym sym2 cs cs2 adv adv2 mode mode2 h1 h2 h3 h4 => by
      rw [h1, h2, h3, h4]⟩

/-- Concrete instantiation of the determinism theorem. -/
theorem c8_pipeline_deterministic_witness :
    runSequenceModel ⟨fun _ => ⟨Signal.HOLD, 1⟩⟩ [1, 2] =
      runSequenceModel ⟨fun _ => ⟨Signal.HOLD, 1⟩⟩ [1, 2] ∧
    runPipeline ⟨fun _ => ⟨Signal.HOLD, 1⟩⟩ "BTCUSDT" [] ⟨Signal.HOLD, "r"⟩
        Mode.simulated =
      runPipeline ⟨fun _ => ⟨Signal.HOLD, 1⟩⟩ "BTCUSDT" [] ⟨Signal.HOLD, "r"⟩
        Mode.simulated :=
  ⟨c8_pipeline_deterministic.1 ⟨fun _ => ⟨Signal.HOLD, 1⟩⟩ [1, 2] [1, 2] rfl,
    c8_pipeline_deterministic.2 ⟨fun _ => ⟨Signal.HOLD, 1⟩⟩ "BTCUSDT"
      "BTCUSDT" [] [] ⟨Signal.HOLD, "r"⟩ ⟨Signal.HOLD, "r"⟩ Mode.simulated
      Mode.simulated rfl rfl rfl rfl⟩

/-- C9: getTopCoins throws the error "Limit must be between 1 and 500" without issuing any request when the limit is outside [1, 500]; otherwise it requests the top-coins endpoint with exactly that limit, and the default argument is 100. -/
theorem c9_get_top_coins_limit (limit : ℚ) :
    (limit < 1 ∨ 500 < limit →
      getTopCoins limit = Except.error "Limit must be between 1 and 500") ∧
    (1 ≤ limit → limit ≤ 500 →
      getTopCoins limit = Except.ok { path := topCoinsPath, limit := limit }) ∧
    getTopCoinsDefault =
      Except.ok { path := topCoinsPath, limit := 100 } := by
  refine ⟨fun h => ?_, fun h1 h2 => ?_, ?_⟩
  · simp only [getTopCoins]
    rw [if_pos h]
  · simp only [getTopCoins]
    rw [if_neg (by push_neg; exact ⟨h1, h2⟩)]
  · simp only [getTopCoinsDefault, getTopCoins]
    norm_num

/-- Concrete instantiation of the top-coins limit theorem. -/
theorem c9_get_top_coins_limit_witness :
    getTopCoins 501 = Except.error "Limit must be between 1 and 500" ∧
    getTopCoins 0 = Except.error "Limit must be between 1 and 500" ∧
    getTopCoins 250 = Except.ok { path := topCoinsPath, limit := 250 } :=
  ⟨(c9_get_top_coins_limit 501).1 (Or.inr (by norm_num)),
    (c9_get_top_coins_limit 0).1 (Or.inl (by norm_num)),
    (c9_get_top_coins_limit 250).2.1 (by norm_num) (by norm_num)⟩

/-- C10: the Settings form submit includes only fields whose value is non-empty after trimming; every API-key field left empty is omitted from the payload entirely, so the corresponding stored key is left unchanged by the update. -/
theorem c10_settings_omit_empty (f : SettingsForm) (st : StoredKeys) :
    (jsTrim f.binance_api_key = "" →
      (buildSettingsPayload f).binance_api_key = none ∧
      (applySettingsUpdate st (buildSettingsPayload f)).binance_api_key =
        st.binance_api_key) ∧
    (jsTrim f.binance_api_key ≠ "" →
      (buildSettingsPayload f).binance_api_key = some f.binance_api_key) ∧
    (jsTrim f.binance_secret_key = "" →
      (buildSettingsPayload f).binance_secret_key = none ∧
      (applySettingsUpdate st (buildSettingsPayload f)).binance_secret_key =
        st.binance_secret_key) ∧
    (jsTrim f.binance_secret_key ≠ "" →
      (buildSettingsPayload f).binance_secret_key =
        some f.binance_secret_key) ∧
    (jsTrim f.openai_api_key = "" →
      (buildSettingsPayload f).openai_api_key = none ∧
      (applySettingsUpdate st (buildSettingsPayload f)).openai_api_key =
        st.openai_api_key) ∧
    (jsTrim f.openai_api_key ≠ "" →
      (buildSettingsPayload f).openai_api_key = some f.openai_api_key) := by
  refine ⟨fun h => ?_, fun h => ?_, fun h => ?_, fun h => ?_, fun h => ?_,
    fun h => ?_⟩ <;>
    simp [buildSettingsPayload, applySettingsUpdate, h]

/-- Concrete instantiation of the settings-update theorem. -/
theorem c10_settings_omit_empty_witness :
    ((buildSettingsPayload ⟨"", "  ", "sk-key"⟩).binance_api_key = none ∧
      (applySettingsUpdate ⟨"a", "b", "c"⟩
          (buildSettingsPayload ⟨"", "  ", "sk-key"⟩)).binance_api_key = "a") ∧
    ((buildSettingsPayload ⟨"", "  ", "sk-key"⟩).binance_secret_key = none ∧
      (applySettingsUpdate ⟨"a", "b", "c"⟩
          (buildSettingsPayload ⟨"", "  ", "sk-key"⟩)).binance_secret_key =
        "b") ∧
    (buildSettingsPayload ⟨"", "  ", "sk-key"⟩).openai_api_key =
      some "sk-key" :=
  ⟨(c10_settings_omit_empty ⟨"", "  ", "sk-key"⟩ ⟨"a", "b", "c"⟩).1
      (by decide),
    (c10_settings_omit_empty ⟨"", "  ", "sk-key"⟩ ⟨"a", "b", "c"⟩).2.2.1
      (by decide),
    (c10_settings_omit_empty ⟨"", "  ", "sk-key"⟩ ⟨"a", "b", "c"⟩).2.2.2.2.2
      (by decide)⟩
